import Mathlib

/-!
Verification of the multi-agent orchestration substrate targeted by the
repository's ADK example agents.

The repository's own files are configuration: they declare agent trees
(Sequential / Parallel / Loop composites over inference-backed leaves) and
plain tool functions.  The scheduler, state store, template resolver and
control router that give those declarations meaning are the orchestration
engine; the engine is embedded here from the specification, while every
tool function (`check_and_transfer`, `view_shopping_list`,
`add_to_shopping_list`, `save_list_as_artifact`) and every concrete agent
configuration is translated directly from the repository's Python sources.
-/

namespace Adk

/-- Left brace character, named to keep placeholder syntax readable. -/
def lbrace : Char := Char.ofNat 123

/-- Right brace character. -/
def rbrace : Char := Char.ofNat 125

/-- Values storable in the session state: text, number, boolean, or an
opaque sequence (the shopping list is a sequence of strings). -/
inductive Value where
  | str (s : String)
  | num (n : Int)
  | bool (b : Bool)
  | list (l : List String)
deriving Repr, DecidableEq

/-- Modelled from the spec: the per-session StateStore is a mapping from
string keys to values; a write shadows earlier bindings for the key. -/
structure StateStore where
  entries : List (String × Value)
deriving Repr, DecidableEq

/-- Read a key; the first (most recent) binding wins. -/
def StateStore.get? (s : StateStore) (k : String) : Option Value :=
  (List.find? (fun p => p.1 == k) s.entries).map Prod.snd

/-- Write a key by shadowing: new bindings are prepended. -/
def StateStore.set (s : StateStore) (k : String) (v : Value) : StateStore :=
  ⟨(k, v) :: s.entries⟩

/-- The keys that have ever been written into the store. -/
def StateStore.keys (s : StateStore) : List String :=
  s.entries.map Prod.fst

/-- Python's `state.get("shopping_list", [])`: an unset (or non-sequence)
key reads as the empty sequence. -/
def StateStore.getListD (s : StateStore) (k : String) : List String :=
  match s.get? k with
  | some (Value.list l) => l
  | _ => []

/-- Text rendering of a stored value, used by template interpolation. -/
def valueText : Value → String
  | .str s => s
  | .num n => toString n
  | .bool b => toString b
  | .list l => String.intercalate ", " l

/-- Modelled from the spec: a read of an unset key returns a defined
default (the empty text), never an error. -/
def lookupText (s : StateStore) (k : String) : String :=
  match s.get? k with
  | some v => valueText v
  | none => ""

/-- Modelled from the spec: the TemplateResolver scans the instruction
text; a `\x7bkey\x7d` placeholder is replaced by the stored value's text.
The accumulator holds the partially read key (reversed) once a left brace
has been opened. -/
def resolveChars (s : StateStore) : List Char → Option (List Char) → List Char
  | [], none => []
  | [], some acc => lbrace :: acc.reverse
  | c :: rest, none =>
      if c = lbrace then resolveChars s rest (some [])
      else c :: resolveChars s rest none
  | c :: rest, some acc =>
      if c = rbrace then
        (lookupText s (String.mk acc.reverse)).data ++ resolveChars s rest none
      else resolveChars s rest (some (c :: acc))

/-- Resolve an instruction template against the state store. -/
def resolveTemplate (t : String) (s : StateStore) : String :=
  String.mk (resolveChars s t.data none)

/-- State-passing variant of the resolver: the store is threaded through
the scan and through every lookup, so that the theorem that resolution
leaves the store unchanged is about the threading, not about a type that
cannot express mutation. -/
def resolveCharsS : StateStore → List Char → Option (List Char) → List Char × StateStore
  | s, [], none => ([], s)
  | s, [], some acc => (lbrace :: acc.reverse, s)
  | s, c :: rest, none =>
      if c = lbrace then resolveCharsS s rest (some [])
      else
        let r := resolveCharsS s rest none
        (c :: r.1, r.2)
  | s, c :: rest, some acc =>
      if c = rbrace then
        let looked := lookupText s (String.mk acc.reverse)
        let r := resolveCharsS s rest none
        (looked.data ++ r.1, r.2)
      else resolveCharsS s rest (some (c :: acc))

/-- Template resolution that also reports the store it leaves behind. -/
def resolveTemplateS (t : String) (s : StateStore) : String × StateStore :=
  let r := resolveCharsS s t.data none
  (String.mk r.1, r.2)

/-- Lower-casing, as Python's `str.lower()` is used by the tools. -/
def toLowerStr (s : String) : String :=
  String.mk (s.data.map Char.toLower)

/-- Whether `pat` occurs as a contiguous run inside `text` (Python's
`pat in text` on strings). -/
def charsContain (text pat : List Char) : Bool :=
  match text with
  | [] => pat.isEmpty
  | _ :: t => pat.isPrefixOf text || charsContain t pat

/-- Python's `pat in text` substring test. -/
def strContains (text pat : String) : Bool :=
  charsContain text.data pat.data

/-- The `view_shopping_list` tool of the shopping agent: reads the
`shopping_list` key (empty when unset) and renders it. -/
def view_shopping_list (s : StateStore) : String :=
  let current_list := s.getListD "shopping_list"
  if current_list.isEmpty then "The shopping list is currently empty."
  else "Here is your shopping list:\n- " ++ String.intercalate "\n- " current_list

/-- The `add_to_shopping_list` tool: appends the item unless an entry
equal ignoring case is already present, writes the list back, and always
returns the same acknowledgement text. -/
def add_to_shopping_list (item : String) (s : StateStore) : String × StateStore :=
  let current_list := s.getListD "shopping_list"
  let new_list :=
    if (current_list.map toLowerStr).contains (toLowerStr item) then current_list
    else current_list ++ [item]
  ("'" ++ item ++ "' has been added to the list.",
   s.set "shopping_list" (.list new_list))

/-- Modelled from the spec: the ArtifactService contract
`save(filename, content) -> version`; the service itself is external to
the repository, only its configured/unconfigured behaviour is specified. -/
structure ArtifactService where
  save : String → String → Nat

/-- Modelled from the spec: calling save with no service configured fails
with a configuration error; a configured service returns a version. -/
def saveArtifact (svc : Option ArtifactService) (filename content : String) :
    Except String Nat :=
  match svc with
  | some service => .ok (service.save filename content)
  | none => .error "Artifact service is not initialized"

/-- The observable outcomes of the `save_list_as_artifact` callback: the
Python prints in every branch and never lets the error escape. -/
inductive CallbackOutcome where
  | noSaveRequested
  | emptyListNotSaved
  | saved (version : Nat)
  | errorReported (msg : String)
deriving Repr, DecidableEq

/-- The `save_list_as_artifact` after-agent callback of the shopping
agent: on a "save the list" request it saves the rendered list as an
artifact, catching the configuration error (`ValueError` in the source)
and reporting it instead of letting it abort the turn. -/
def save_list_as_artifact (svc : Option ArtifactService)
    (userLastMessage : String) (s : StateStore) : CallbackOutcome :=
  if strContains (toLowerStr userLastMessage) "save the list" then
    let shopping_list := s.getListD "shopping_list"
    if shopping_list.isEmpty then .emptyListNotSaved
    else
      let file_content := "My Shopping List:\n\n- " ++ String.intercalate "\n- " shopping_list
      match saveArtifact svc "shopping_list.txt" file_content with
      | .ok version => .saved version
      | .error e =>
          .errorReported ("Error saving artifact: " ++ e ++
            ". Is an ArtifactService configured in your runner?")
  else .noSaveRequested

/-- What terminated a Loop composite, carried on its terminal Event. -/
inductive TermReason where
  | escalated
  | maxIterationsReached
deriving Repr, DecidableEq

/-- Control actions a tool may declare: transfer-of-control and loop
escalation.  Set by tool execution, consumed by the scheduler/router. -/
structure ControlAction where
  transferToAgentId : Option String := none
  escalate : Bool := false
deriving Repr, DecidableEq

instance : Inhabited ControlAction := ⟨{}⟩

/-- An emitted Event: immutable, appended to the session history. -/
structure Event where
  content : String
  isFinal : Bool
  sourceAgentId : String
  actions : Option ControlAction
  isError : Bool
  terminatedBy : Option TermReason
deriving Repr, DecidableEq

/-- The Agent variants (the capability set of the spec's data model). -/
inductive AgentKind where
  | leaf
  | sequential
  | parallel
  | loop
  | remote
deriving Repr, DecidableEq

/-- An Agent definition: immutable configuration forming a tree.  A leaf
may hold sub-agents (they are transfer targets, not scheduled children),
`max_iterations` is meaningful only for the loop variant. -/
inductive Agent where
  | mk (name : String) (instruction : String) (kind : AgentKind)
       (output_key : Option String) (max_iterations : Nat)
       (sub_agents : List Agent)
deriving Repr

def Agent.name : Agent → String
  | .mk n _ _ _ _ _ => n

def Agent.instruction : Agent → String
  | .mk _ i _ _ _ _ => i

def Agent.kind : Agent → AgentKind
  | .mk _ _ k _ _ _ => k

def Agent.output_key : Agent → Option String
  | .mk _ _ _ ok _ _ => ok

def Agent.max_iterations : Agent → Nat
  | .mk _ _ _ _ m _ => m

/-- The direct children of a composite (and the transfer targets that a
coordinator leaf declares). -/
def Agent.sub_agents : Agent → List Agent
  | .mk _ _ _ _ _ l => l

/-- An inference-backed leaf with tools, as `LlmAgent(...)` declares one. -/
def LlmAgent (name instruction : String) (output_key : Option String)
    (sub_agents : List Agent) : Agent :=
  Agent.mk name instruction .leaf output_key 0 sub_agents

/-- A Sequential composite, as `SequentialAgent(...)` declares one. -/
def SequentialAgent (name : String) (sub_agents : List Agent) : Agent :=
  Agent.mk name "" .sequential none 0 sub_agents

/-- A Parallel composite, as `ParallelAgent(...)` declares one. -/
def ParallelAgent (name : String) (sub_agents : List Agent) : Agent :=
  Agent.mk name "" .parallel none 0 sub_agents

/-- A Loop composite, as `LoopAgent(...)` declares one. -/
def LoopAgent (name : String) (sub_agents : List Agent)
    (max_iterations : Nat) : Agent :=
  Agent.mk name "" .loop none max_iterations sub_agents

/-- Outcome of one leaf invocation: the inference/tool pipeline either
produces final text together with any tool-declared control action, or
fails (an inference or remote-call error). -/
inductive LeafOutcome where
  | ok (text : String) (action : ControlAction)
  | fail (msg : String)
deriving Repr, DecidableEq

/-- The opaque inference capability: from the agent's name, the turn's
input and the resolved instruction, the outcome of the leaf's turn. -/
def Env : Type := String → String → String → LeafOutcome

/-- Result of scheduling one node: the ordered events it emitted, the
state it leaves behind, the pending control action it surfaces to its
parent, and the trace of (agent name, resolved instruction) pairs in the
order the leaves were invoked. -/
structure RunResult where
  events : List Event
  state : StateStore
  action : ControlAction
  trace : List (String × String)
deriving Repr

/-- The empty result: no events, state unchanged, no pending action. -/
def emptyResult (s : StateStore) : RunResult :=
  { events := [], state := s, action := {}, trace := [] }

/-- One leaf turn: resolve the template, invoke inference, write the
`output_key` on success, emit one final Event (an error Event when the
inference capability fails — surfaced, not swallowed). -/
def runLeafStep (env : Env) (input : String) (name template : String)
    (outKey : Option String) (s : StateStore) : RunResult :=
  let resolved := resolveTemplate template s
  match env name input resolved with
  | .ok text act =>
      { events := [{ content := text, isFinal := true, sourceAgentId := name,
                     actions := some act, isError := false, terminatedBy := none }],
        state := match outKey with
                 | some k => s.set k (.str text)
                 | none => s,
        action := act,
        trace := [(name, resolved)] }
  | .fail msg =>
      { events := [{ content := msg, isFinal := true, sourceAgentId := name,
                     actions := none, isError := true, terminatedBy := none }],
        state := s,
        action := {},
        trace := [(name, resolved)] }

/-- The barrier Event a Parallel composite emits once every branch has
emitted its final Event. -/
def barrierEvent (name : String) : Event :=
  { content := "", isFinal := true, sourceAgentId := name,
    actions := none, isError := false, terminatedBy := none }

/-- The terminal Event of a Loop composite, tagged with what terminated it. -/
def loopTerminalEvent (name : String) (r : TermReason) : Event :=
  { content := "", isFinal := true, sourceAgentId := name,
    actions := none, isError := false, terminatedBy := some r }

/-- Scheduling work items: one node, a sequential tail, an isolated
parallel tail, or a loop with remaining iteration budget. -/
inductive Job where
  | one (a : Agent)
  | seqJob (l : List Agent)
  | parJob (l : List Agent)
  | loopJob (name : String) (l : List Agent) (n : Nat)
deriving Repr

/-- Modelled from the spec: the Scheduler/Executor.  It walks the agent
tree applying each variant's composition semantics:
leaves (and remote proxies) run one inference turn;
a Sequential composite threads state through its children in declaration
order and suspends its remaining children when a transfer is raised;
a Parallel composite runs every branch against the same incoming state,
concatenates the branches' events in arrival order, emits its barrier
Event last, and merges the branch state deltas with later-declared
branches winning key collisions;
a Loop composite repeats its sequence, observing escalation only after a
full iteration, until escalation or the iteration budget runs out. -/
def exec (env : Env) (input : String) : Job → StateStore → RunResult
  | .one (.mk name t .leaf outKey _ _), s => runLeafStep env input name t outKey s
  | .one (.mk name t .remote outKey _ _), s => runLeafStep env input name t outKey s
  | .one (.mk _ _ .sequential _ _ subs), s => exec env input (.seqJob subs) s
  | .one (.mk name _ .parallel _ _ subs), s =>
      let r := exec env input (.parJob subs) s
      { events := r.events ++ [barrierEvent name], state := r.state,
        action := {}, trace := r.trace }
  | .one (.mk name _ .loop _ m subs), s => exec env input (.loopJob name subs m) s
  | .seqJob [], s => emptyResult s
  | .seqJob (a :: rest), s =>
      let r := exec env input (.one a) s
      if r.action.transferToAgentId.isSome then r
      else
        let r2 := exec env input (.seqJob rest) r.state
        { events := r.events ++ r2.events, state := r2.state,
          action := { transferToAgentId := r2.action.transferToAgentId,
                      escalate := r.action.escalate || r2.action.escalate },
          trace := r.trace ++ r2.trace }
  | .parJob [], s => emptyResult s
  | .parJob (a :: rest), s =>
      let r := exec env input (.one a) s
      let r2 := exec env input (.parJob rest) s
      { events := r.events ++ r2.events,
        state := ⟨r2.state.entries.take (r2.state.entries.length - s.entries.length)
                    ++ r.state.entries⟩,
        action := {}, trace := r.trace ++ r2.trace }
  | .loopJob name _ 0, s =>
      { events := [loopTerminalEvent name .maxIterationsReached],
        state := s, action := {}, trace := [] }
  | .loopJob name subs (n + 1), s =>
      let r := exec env input (.seqJob subs) s
      if r.action.escalate then
        { events := r.events ++ [loopTerminalEvent name .escalated],
          state := r.state, action := {}, trace := r.trace }
      else
        let r2 := exec env input (.loopJob name subs n) r.state
        { events := r.events ++ r2.events, state := r2.state,
          action := {}, trace := r.trace ++ r2.trace }
termination_by j _ => sizeOf j

/-- Modelled from the spec: the orchestration entry point for one agent
tree. -/
def runAgent (env : Env) (input : String) (a : Agent) (s : StateStore) : RunResult :=
  exec env input (.one a) s

/-- The description of one inference-backed leaf, as the example files
declare them: a name, an instruction template and an optional output key. -/
structure LeafDescr where
  name : String
  instruction : String
  output_key : Option String
deriving Repr, DecidableEq

/-- The leaf agent an `LlmAgent(...)` declaration denotes. -/
def LeafDescr.toAgent (d : LeafDescr) : Agent :=
  Agent.mk d.name d.instruction .leaf d.output_key 0 []

def defaultDescr : LeafDescr := ⟨"", "", none⟩

/-! Concrete configurations, translated from
`module_4/code/lab1/sequential_pattern/agent.py`. -/

def code_writer_agent : LeafDescr :=
  { name := "CodeWriter",
    instruction := "You are an expert software developer. When given requirements,
    write clean, well-structured code. Focus on functionality and clarity.
    Always include basic error handling and comments.",
    output_key := some "initial_code" }

def code_reviewer_agent : LeafDescr :=
  { name := "CodeReviewer",
    instruction := "You are a senior code reviewer. Review the following code: '{initial_code}'

    Check for:
    - Code quality and readability
    - Potential bugs or issues
    - Adherence to best practices
    - Security considerations

    Provide specific feedback and suggestions for improvement.",
    output_key := some "review_feedback" }

def code_refactorer_agent : LeafDescr :=
  { name := "CodeRefactorer",
    instruction := "You are a refactoring expert. Take the original code: '{initial_code}'
    and the review feedback: '{review_feedback}' to produce improved code.

    Apply the suggested improvements while maintaining functionality.
    Make the code more maintainable, efficient, and robust.",
    output_key := some "refactored_code" }

/-- The declaration order of the CodePipelineAgent's sub-agents. -/
def code_pipeline_descrs : List LeafDescr :=
  [code_writer_agent, code_reviewer_agent, code_refactorer_agent]

/-- `CodePipelineAgent`: writer, then reviewer, then refactorer. -/
def code_pipeline_agent : Agent :=
  SequentialAgent "CodePipelineAgent" (code_pipeline_descrs.map LeafDescr.toAgent)

/-! Concrete configurations, translated from
`module_4/code/lab1/loop_pattern/agent.py`. -/

def critic_agent_in_loop : LeafDescr :=
  { name := "QualityCritic",
    instruction := "You are a quality critic. Evaluate the current work: '{current_output}'

    Assess:
    - Clarity and coherence
    - Completeness and accuracy
    - Areas for improvement

    If the work meets high standards, respond with \"APPROVED: [brief praise]\"
    If it needs improvement, provide specific, actionable feedback.",
    output_key := some "critique_feedback" }

def refiner_agent_in_loop : LeafDescr :=
  { name := "ContentRefiner",
    instruction := "You are a content refiner. Take the previous work: '{current_output}'
    and the critique: '{critique_feedback}' to create an improved version.

    If the critique says \"APPROVED\", keep the content as-is.
    Otherwise, address all the feedback points and enhance the quality.",
    output_key := some "current_output" }

/-- `RefinementLoop`: critique first, then refine, up to 5 iterations. -/
def refinement_loop : Agent :=
  LoopAgent "RefinementLoop"
    [critic_agent_in_loop.toAgent, refiner_agent_in_loop.toAgent] 5

/-! Concrete configurations, translated from
`module_4/code/lab1/parallel_pattern/agent.py`. -/

def researcher_agent_1 : LeafDescr :=
  { name := "TechResearcher",
    instruction := "You are a technology research specialist. When given a topic,
    research the latest technological developments, innovations, and trends.
    Focus on cutting-edge technologies and their implications.",
    output_key := some "tech_research" }

def researcher_agent_2 : LeafDescr :=
  { name := "MarketResearcher",
    instruction := "You are a market research analyst. When given a topic,
    research market trends, business opportunities, and economic impacts.
    Focus on market size, growth potential, and competitive landscape.",
    output_key := some "market_research" }

def researcher_agent_3 : LeafDescr :=
  { name := "AcademicResearcher",
    instruction := "You are an academic researcher. When given a topic,
    research recent academic papers, scientific studies, and scholarly insights.
    Focus on peer-reviewed research and evidence-based findings.",
    output_key := some "academic_research" }

/-- The declaration order of the ParallelWebResearchAgent's branches. -/
def web_research_descrs : List LeafDescr :=
  [researcher_agent_1, researcher_agent_2, researcher_agent_3]

/-! Configuration-time validation for Parallel composites. -/

/-- The output keys declared by a composite's direct children. -/
def declaredOutputKeys (l : List Agent) : List String :=
  l.filterMap Agent.output_key

/-- Whether some key occurs twice in the list. -/
def hasDuplicate : List String → Bool
  | [] => false
  | k :: rest => rest.contains k || hasDuplicate rest

/-- Modelled from the spec: a Parallel composite whose sibling branches
declare a duplicate output key is rejected with a ConfigurationError at
construction time; otherwise the composite is built. -/
def mkValidatedParallel (name : String) (sub_agents : List Agent) : Except String Agent :=
  if hasDuplicate (declaredOutputKeys sub_agents) then
    .error "ConfigurationError: duplicate output keys in Parallel siblings"
  else
    .ok (ParallelAgent name sub_agents)

/-! Concrete configurations, translated from
`module_4/code/lab1/coordinator_pattern/agent.py`. -/

def billing_agent : Agent :=
  LlmAgent "billing_agent"
    "You are a billing specialist. Help customers with:
    - Payment processing issues
    - Invoice questions
    - Billing disputes
    - Account balance inquiries
    - Subscription management

    Be helpful and provide clear solutions." none []

def support_agent : Agent :=
  LlmAgent "support_agent"
    "You are a technical support specialist. Help customers with:
    - Software troubleshooting
    - Configuration issues
    - Performance problems
    - Feature questions
    - Integration support

    Provide step-by-step solutions and ask clarifying questions when needed." none []

/-- `HelpDeskCoordinator`: a leaf with the `check_and_transfer` tool and
the two specialists as its direct children. -/
def coordinator_root_agent : Agent :=
  LlmAgent "HelpDeskCoordinator"
    "You are a help desk coordinator. Analyze user requests and route them appropriately." none
    [billing_agent, support_agent]

def billing_keywords : List String :=
  ["bill", "payment", "invoice", "charge", "subscription", "refund", "price"]

def tech_keywords : List String :=
  ["error", "bug", "install", "configure", "troubleshoot", "performance"]

/-- The `check_and_transfer` tool: keyword routing over the lower-cased
query; a match records the transfer target on the tool context's actions. -/
def check_and_transfer (query : String) (actions : ControlAction) : String × ControlAction :=
  let query_lower := toLowerStr query
  if billing_keywords.any (fun kw => strContains query_lower kw) then
    ("Transferring to our billing specialist who can help with payment and account issues...",
     { actions with transferToAgentId := some "billing_agent" })
  else if tech_keywords.any (fun kw => strContains query_lower kw) then
    ("Transferring to our technical support team for assistance...",
     { actions with transferToAgentId := some "support_agent" })
  else
    ("I've analyzed your query: '" ++ query ++ "'. Let me help you directly.", actions)

/-- Modelled from the spec: the ControlRouter resolves a transfer request
by searching the currently active composite's direct children — not the
whole tree — for an agent literally named `x`; an unknown name is a
configuration error. -/
def routeTransfer (active : Agent) (x : String) : Except String Agent :=
  match active.sub_agents.find? (fun c => c.name == x) with
  | some c => .ok c
  | none => .error ("ConfigurationError: transfer target is not a direct child: " ++ x)

/-- The error Event that surfaces a configuration error to the caller. -/
def configErrorEvent (name msg : String) : Event :=
  { content := msg, isFinal := true, sourceAgentId := name,
    actions := none, isError := true, terminatedBy := none }

/-- Modelled from the spec: one turn with transfer-of-control.  The
active agent runs; if its surfaced action names a transfer target, the
router resolves it among the direct children and the target runs with the
original user input; an unresolvable target surfaces a configuration
error Event and is not retried. -/
def runTransferTurn (env : Env) (root : Agent) (input : String) (s : StateStore) : RunResult :=
  let r := runAgent env input root s
  match r.action.transferToAgentId with
  | none => r
  | some x =>
      match routeTransfer root x with
      | .ok target =>
          let r2 := runAgent env input target r.state
          { events := r.events ++ r2.events, state := r2.state,
            action := r2.action, trace := r.trace ++ r2.trace }
      | .error msg =>
          { events := r.events ++ [configErrorEvent root.name msg],
            state := r.state, action := {}, trace := r.trace }

/-! Environments restricted by what the sub-agents' tools do. -/

/-- No tool of any leaf ever requests a transfer. -/
def noTransfer (env : Env) : Prop :=
  ∀ nm inp instr text act, env nm inp instr = .ok text act →
    act.transferToAgentId = none

/-- No tool of any leaf ever sets `escalate = true`. -/
def noEscalate (env : Env) : Prop :=
  ∀ nm inp instr text act, env nm inp instr = .ok text act →
    act.escalate = false

/-! Reference recursions the theorems compare the scheduler against. -/

/-- The state left behind by one leaf turn. -/
def leafNextState (env : Env) (input : String) (d : LeafDescr) (s : StateStore) : StateStore :=
  (runLeafStep env input d.name d.instruction d.output_key s).state

/-- The events of one leaf turn. -/
def leafEvents (env : Env) (input : String) (d : LeafDescr) (s : StateStore) : List Event :=
  (runLeafStep env input d.name d.instruction d.output_key s).events

/-- The state after running a prefix of a sequential pipeline of leaves,
threading each leaf's `output_key` write into the next. -/
def seqStateAfter (env : Env) (input : String) : List LeafDescr → StateStore → StateStore
  | [], s => s
  | d :: rest, s => seqStateAfter env input rest (leafNextState env input d s)

/-- The events a full ordered run of the sub-agent list emits, threading
state left to right; the reference for one loop iteration and for a
transfer-free Sequential turn. -/
def seqEventsRef (env : Env) (input : String) : List Agent → StateStore → List Event
  | [], _ => []
  | a :: rest, s =>
      (runAgent env input a s).events ++
        seqEventsRef env input rest (runAgent env input a s).state

/-- The state after one full loop iteration over the sub-agent list. -/
def seqStep (env : Env) (input : String) (subs : List Agent) (s : StateStore) : StateStore :=
  (exec env input (.seqJob subs) s).state

/-- The state after `n` full loop iterations. -/
def loopIterState (env : Env) (input : String) (subs : List Agent) : Nat → StateStore → StateStore
  | 0, s => s
  | n + 1, s => loopIterState env input subs n (seqStep env input subs s)

/-- The events of `n` full loop iterations, concatenated in order. -/
def loopIterEvents (env : Env) (input : String) (subs : List Agent) : Nat → StateStore → List Event
  | 0, _ => []
  | n + 1, s =>
      (exec env input (.seqJob subs) s).events ++
        loopIterEvents env input subs n (seqStep env input subs s)

/-! Unfolding equations for the scheduler, one per case. -/

theorem exec_one_leaf (env : Env) (input : String) (name t : String)
    (outKey : Option String) (m : Nat) (subs : List Agent) (s : StateStore) :
    exec env input (.one (.mk name t .leaf outKey m subs)) s =
      runLeafStep env input name t outKey s := by
  rw [exec]

theorem exec_one_remote (env : Env) (input : String) (name t : String)
    (outKey : Option String) (m : Nat) (subs : List Agent) (s : StateStore) :
    exec env input (.one (.mk name t .remote outKey m subs)) s =
      runLeafStep env input name t outKey s := by
  rw [exec]

theorem exec_one_sequential (env : Env) (input : String) (name t : String)
    (outKey : Option String) (m : Nat) (subs : List Agent) (s : StateStore) :
    exec env input (.one (.mk name t .sequential outKey m subs)) s =
      exec env input (.seqJob subs) s := by
  rw [exec]

theorem exec_one_parallel (env : Env) (input : String) (name t : String)
    (outKey : Option String) (m : Nat) (subs : List Agent) (s : StateStore) :
    exec env input (.one (.mk name t .parallel outKey m subs)) s =
      { events := (exec env input (.parJob subs) s).events ++ [barrierEvent name],
        state := (exec env input (.parJob subs) s).state,
        action := {}, trace := (exec env input (.parJob subs) s).trace } := by
  rw [exec]

theorem exec_one_loop (env : Env) (input : String) (name t : String)
    (outKey : Option String) (m : Nat) (subs : List Agent) (s : StateStore) :
    exec env input (.one (.mk name t .loop outKey m subs)) s =
      exec env input (.loopJob name subs m) s := by
  rw [exec]

theorem exec_seq_nil (env : Env) (input : String) (s : StateStore) :
    exec env input (.seqJob []) s = emptyResult s := by
  rw [exec]

theorem exec_seq_cons (env : Env) (input : String) (a : Agent)
    (rest : List Agent) (s : StateStore) :
    exec env input (.seqJob (a :: rest)) s =
      (let r := exec env input (.one a) s
      if r.action.transferToAgentId.isSome then r
      else
        let r2 := exec env input (.seqJob rest) r.state
        { events := r.events ++ r2.events, state := r2.state,
          action := { transferToAgentId := r2.action.transferToAgentId,
                      escalate := r.action.escalate || r2.action.escalate },
          trace := r.trace ++ r2.trace }) := by
  rw [exec]

theorem exec_par_nil (env : Env) (input : String) (s : StateStore) :
    exec env input (.parJob []) s = emptyResult s := by
  rw [exec]

theorem exec_par_cons (env : Env) (input : String) (a : Agent)
    (rest : List Agent) (s : StateStore) :
    exec env input (.parJob (a :: rest)) s =
      (let r := exec env input (.one a) s
      let r2 := exec env input (.parJob rest) s
      { events := r.events ++ r2.events,
        state := ⟨r2.state.entries.take (r2.state.entries.length - s.entries.length)
                    ++ r.state.entries⟩,
        action := {}, trace := r.trace ++ r2.trace }) := by
  rw [exec]

theorem exec_loop_zero (env : Env) (input : String) (name : String)
    (subs : List Agent) (s : StateStore) :
    exec env input (.loopJob name subs 0) s =
      { events := [loopTerminalEvent name .maxIterationsReached],
        state := s, action := {}, trace := [] } := by
  rw [exec]

theorem exec_loop_succ (env : Env) (input : String) (name : String)
    (subs : List Agent) (n : Nat) (s : StateStore) :
    exec env input (.loopJob name subs (n + 1)) s =
      (let r := exec env input (.seqJob subs) s
      if r.action.escalate then
        { events := r.events ++ [loopTerminalEvent name .escalated],
          state := r.state, action := {}, trace := r.trace }
      else
        let r2 := exec env input (.loopJob name subs n) r.state
        { events := r.events ++ r2.events, state := r2.state,
          action := {}, trace := r.trace ++ r2.trace }) := by
  rw [exec]

/-! Behaviour of the pending control action under restricted environments. -/

theorem runLeafStep_transfer_none (env : Env) (input : String)
    (h : noTransfer env) (name t : String) (outKey : Option String) (s : StateStore) :
    (runLeafStep env input name t outKey s).action.transferToAgentId = none := by
  cases henv : env name input (resolveTemplate t s) with
  | ok text act =>
      simp only [runLeafStep, henv]
      exact h _ _ _ _ _ henv
  | fail msg => simp only [runLeafStep, henv]

theorem runLeafStep_escalate_false (env : Env) (input : String)
    (h : noEscalate env) (name t : String) (outKey : Option String) (s : StateStore) :
    (runLeafStep env input name t outKey s).action.escalate = false := by
  cases henv : env name input (resolveTemplate t s) with
  | ok text act =>
      simp only [runLeafStep, henv]
      exact h _ _ _ _ _ henv
  | fail msg => simp only [runLeafStep, henv]

theorem exec_transfer_none (env : Env) (input : String) (h : noTransfer env) :
    ∀ (j : Job) (s : StateStore),
      (exec env input j s).action.transferToAgentId = none := by
  intro j s
  induction j, s using exec.induct env input with
  | case1 name t outKey m subs s =>
      rw [exec_one_leaf]
      exact runLeafStep_transfer_none env input h name t outKey s
  | case2 name t outKey m subs s =>
      rw [exec_one_remote]
      exact runLeafStep_transfer_none env input h name t outKey s
  | case3 name instr outKey m subs s ih =>
      rw [exec_one_sequential]; exact ih
  | case4 name instr outKey m subs s ih =>
      rw [exec_one_parallel]
  | case5 name instr outKey m subs s ih =>
      rw [exec_one_loop]; exact ih
  | case6 s => rw [exec_seq_nil]; rfl
  | case7 a rest s r hr ih =>
      rw [exec_seq_cons]
      simp only []
      rw [if_pos hr]
      exact ih
  | case8 a rest s r hr ih ih2 =>
      rw [exec_seq_cons]
      simp only []
      rw [if_neg hr]
      exact ih2
  | case9 s => rw [exec_par_nil]; rfl
  | case10 a rest s ih ih2 => rw [exec_par_cons]
  | case11 name l s => rw [exec_loop_zero]
  | case12 name subs n s r hr ih =>
      rw [exec_loop_succ]
      simp only []
      rw [if_pos hr]
  | case13 name subs n s r hr ih ih2 =>
      rw [exec_loop_succ]
      simp only []
      rw [if_neg hr]

theorem exec_escalate_false (env : Env) (input : String) (h : noEscalate env) :
    ∀ (j : Job) (s : StateStore),
      (exec env input j s).action.escalate = false := by
  intro j s
  induction j, s using exec.induct env input with
  | case1 name t outKey m subs s =>
      rw [exec_one_leaf]
      exact runLeafStep_escalate_false env input h name t outKey s
  | case2 name t outKey m subs s =>
      rw [exec_one_remote]
      exact runLeafStep_escalate_false env input h name t outKey s
  | case3 name instr outKey m subs s ih =>
      rw [exec_one_sequential]; exact ih
  | case4 name instr outKey m subs s ih =>
      rw [exec_one_parallel]
  | case5 name instr outKey m subs s ih =>
      rw [exec_one_loop]; exact ih
  | case6 s => rw [exec_seq_nil]; rfl
  | case7 a rest s r hr ih =>
      rw [exec_seq_cons]
      simp only []
      rw [if_pos hr]
      exact ih
  | case8 a rest s r hr ih ih2 =>
      rw [exec_seq_cons]
      simp only []
      rw [if_neg hr]
      simp only []
      rw [ih, ih2]
      rfl
  | case9 s => rw [exec_par_nil]; rfl
  | case10 a rest s ih ih2 => rw [exec_par_cons]
  | case11 name l s => rw [exec_loop_zero]
  | case12 name subs n s r hr ih =>
      rw [exec_loop_succ]
      simp only []
      rw [if_pos hr]
  | case13 name subs n s r hr ih ih2 =>
      rw [exec_loop_succ]
      simp only []
      rw [if_neg hr]

/-! Facts about one leaf turn. -/

theorem exec_one_descr (env : Env) (input : String) (d : LeafDescr) (s : StateStore) :
    exec env input (.one d.toAgent) s =
      runLeafStep env input d.name d.instruction d.output_key s := by
  rw [LeafDescr.toAgent, exec_one_leaf]

theorem runLeafStep_trace (env : Env) (input : String) (name t : String)
    (outKey : Option String) (s : StateStore) :
    (runLeafStep env input name t outKey s).trace = [(name, resolveTemplate t s)] := by
  cases henv : env name input (resolveTemplate t s) with
  | ok text act => simp only [runLeafStep, henv]
  | fail msg => simp only [runLeafStep, henv]

theorem runLeafStep_events_src (env : Env) (input : String) (name t : String)
    (outKey : Option String) (s : StateStore) :
    (runLeafStep env input name t outKey s).events.map (fun e => e.sourceAgentId) = [name] := by
  cases henv : env name input (resolveTemplate t s) with
  | ok text act => simp only [runLeafStep, henv, List.map_cons, List.map_nil]
  | fail msg => simp only [runLeafStep, henv, List.map_cons, List.map_nil]

theorem runLeafStep_events_final (env : Env) (input : String) (name t : String)
    (outKey : Option String) (s : StateStore) :
    ∀ e ∈ (runLeafStep env input name t outKey s).events, e.isFinal = true := by
  cases henv : env name input (resolveTemplate t s) with
  | ok text act =>
      simp only [runLeafStep, henv, List.mem_singleton]
      intro e he
      rw [he]
  | fail msg =>
      simp only [runLeafStep, henv, List.mem_singleton]
      intro e he
      rw [he]

/-! A transfer-free Sequential run over a pipeline of leaves. -/

theorem exec_seq_descr_cons (env : Env) (input : String) (h : noTransfer env)
    (d : LeafDescr) (rest : List LeafDescr) (s : StateStore) :
    exec env input (.seqJob ((d :: rest).map LeafDescr.toAgent)) s =
      (let r := runLeafStep env input d.name d.instruction d.output_key s
      let r2 := exec env input (.seqJob (rest.map LeafDescr.toAgent)) r.state
      { events := r.events ++ r2.events, state := r2.state,
        action := { transferToAgentId := r2.action.transferToAgentId,
                    escalate := r.action.escalate || r2.action.escalate },
        trace := r.trace ++ r2.trace }) := by
  rw [List.map_cons, exec_seq_cons]
  simp only [exec_one_descr]
  rw [if_neg]
  rw [runLeafStep_transfer_none env input h]
  simp

theorem seq_leaf_state (env : Env) (input : String) (h : noTransfer env) :
    ∀ (descrs : List LeafDescr) (s : StateStore),
      (exec env input (.seqJob (descrs.map LeafDescr.toAgent)) s).state =
        seqStateAfter env input descrs s := by
  intro descrs
  induction descrs with
  | nil => intro s; rw [List.map_nil, exec_seq_nil]; rfl
  | cons d rest ih =>
      intro s
      rw [exec_seq_descr_cons env input h]
      simp only []
      rw [ih]
      rfl

theorem seq_leaf_events_src (env : Env) (input : String) (h : noTransfer env) :
    ∀ (descrs : List LeafDescr) (s : StateStore),
      (exec env input (.seqJob (descrs.map LeafDescr.toAgent)) s).events.map
          (fun e => e.sourceAgentId) =
        descrs.map LeafDescr.name := by
  intro descrs
  induction descrs with
  | nil => intro s; rw [List.map_nil, exec_seq_nil]; rfl
  | cons d rest ih =>
      intro s
      rw [exec_seq_descr_cons env input h]
      simp only [List.map_cons, List.map_append]
      rw [runLeafStep_events_src, ih]
      rfl

theorem seq_leaf_events_final (env : Env) (input : String) (h : noTransfer env) :
    ∀ (descrs : List LeafDescr) (s : StateStore),
      ∀ e ∈ (exec env input (.seqJob (descrs.map LeafDescr.toAgent)) s).events,
        e.isFinal = true := by
  intro descrs
  induction descrs with
  | nil =>
      intro s e he
      rw [List.map_nil, exec_seq_nil] at he
      simp [emptyResult] at he
  | cons d rest ih =>
      intro s e he
      rw [exec_seq_descr_cons env input h] at he
      simp only [List.mem_append] at he
      cases he with
      | inl hl => exact runLeafStep_events_final env input d.name d.instruction d.output_key s e hl
      | inr hr => exact ih _ e hr

theorem seq_leaf_trace (env : Env) (input : String) (h : noTransfer env) :
    ∀ (descrs : List LeafDescr) (s : StateStore),
      (exec env input (.seqJob (descrs.map LeafDescr.toAgent)) s).trace =
        (List.range descrs.length).map (fun j =>
          ((descrs.getD j defaultDescr).name,
           resolveTemplate (descrs.getD j defaultDescr).instruction
             (seqStateAfter env input (descrs.take j) s))) := by
  intro descrs
  induction descrs with
  | nil => intro s; rw [List.map_nil, exec_seq_nil]; rfl
  | cons d rest ih =>
      intro s
      rw [exec_seq_descr_cons env input h]
      simp only [List.length_cons, List.range_succ_eq_map, List.map_cons, List.map_map]
      rw [runLeafStep_trace, ih]
      simp only [List.getD_cons_zero, List.take_zero, List.map_map]
      apply List.cons_eq_cons.mpr
      constructor
      · rfl
      · apply List.map_congr_left
        intro j hj
        simp only [Function.comp_apply, List.getD_cons_succ, List.take_succ_cons]
        rfl

/-- The claim C1 property: for every Sequential composite over a pipeline
of leaves (under any transfer-free environment), the sub-agents run in
declaration order: the emitted final Events carry the sub-agents' names in
declaration order, every emitted Event is a final Event of its sub-agent,
the left state is the ordered fold of the leaves' writes, and the j-th
sub-agent's resolved instruction is resolved against exactly the state
produced by the sub-agents before position j — a function of the earlier
prefix only, so writes of later sub-agents can never appear in it. -/
theorem sequential_declaration_order_and_prefix_visibility
    (env : Env) (input : String) (h : noTransfer env)
    (nm : String) (descrs : List LeafDescr) (s : StateStore) :
    (runAgent env input (SequentialAgent nm (descrs.map LeafDescr.toAgent)) s).events.map
        (fun e => e.sourceAgentId) = descrs.map LeafDescr.name
    ∧ (∀ e ∈ (runAgent env input (SequentialAgent nm (descrs.map LeafDescr.toAgent)) s).events,
        e.isFinal = true)
    ∧ (runAgent env input (SequentialAgent nm (descrs.map LeafDescr.toAgent)) s).state =
        seqStateAfter env input descrs s
    ∧ (runAgent env input (SequentialAgent nm (descrs.map LeafDescr.toAgent)) s).trace =
        (List.range descrs.length).map (fun j =>
          ((descrs.getD j defaultDescr).name,
           resolveTemplate (descrs.getD j defaultDescr).instruction
             (seqStateAfter env input (descrs.take j) s))) := by
  rw [runAgent, SequentialAgent, exec_one_sequential]
  exact ⟨seq_leaf_events_src env input h descrs s,
         seq_leaf_events_final env input h descrs s,
         seq_leaf_state env input h descrs s,
         seq_leaf_trace env input h descrs s⟩

/-- An environment whose leaves answer plain text with no control action. -/
def plainEnv (text : String) : Env := fun _ _ _ => .ok text {}

theorem plainEnv_noTransfer (text : String) : noTransfer (plainEnv text) := by
  intro nm inp instr t act hyp
  cases hyp
  rfl

theorem plainEnv_noEscalate (text : String) : noEscalate (plainEnv text) := by
  intro nm inp instr t act hyp
  cases hyp
  rfl

/-- Witness for C1: the CodePipelineAgent of the sequential pattern lab,
run under a plain environment on the example input. -/
theorem sequential_declaration_order_witness :
    (runAgent (plainEnv "ok") "write a haiku about rain"
        (SequentialAgent "CodePipelineAgent" (code_pipeline_descrs.map LeafDescr.toAgent))
        ⟨[]⟩).events.map (fun e => e.sourceAgentId) = code_pipeline_descrs.map LeafDescr.name
    ∧ (∀ e ∈ (runAgent (plainEnv "ok") "write a haiku about rain"
        (SequentialAgent "CodePipelineAgent" (code_pipeline_descrs.map LeafDescr.toAgent))
        ⟨[]⟩).events, e.isFinal = true)
    ∧ (runAgent (plainEnv "ok") "write a haiku about rain"
        (SequentialAgent "CodePipelineAgent" (code_pipeline_descrs.map LeafDescr.toAgent))
        ⟨[]⟩).state = seqStateAfter (plainEnv "ok") "write a haiku about rain" code_pipeline_descrs ⟨[]⟩
    ∧ (runAgent (plainEnv "ok") "write a haiku about rain"
        (SequentialAgent "CodePipelineAgent" (code_pipeline_descrs.map LeafDescr.toAgent))
        ⟨[]⟩).trace =
        (List.range code_pipeline_descrs.length).map (fun j =>
          ((code_pipeline_descrs.getD j defaultDescr).name,
           resolveTemplate (code_pipeline_descrs.getD j defaultDescr).instruction
             (seqStateAfter (plainEnv "ok") "write a haiku about rain"
               (code_pipeline_descrs.take j) ⟨[]⟩))) :=
  sequential_declaration_order_and_prefix_visibility (plainEnv "ok")
    "write a haiku about rain" (plainEnv_noTransfer "ok")
    "CodePipelineAgent" code_pipeline_descrs ⟨[]⟩

/-! Loop runs: no escalation means the full iteration budget executes. -/

theorem loop_no_escalate_events (env : Env) (input : String) (h : noEscalate env)
    (nm : String) (subs : List Agent) :
    ∀ (n : Nat) (s : StateStore),
      (exec env input (.loopJob nm subs n) s).events =
        loopIterEvents env input subs n s ++ [loopTerminalEvent nm .maxIterationsReached] := by
  intro n
  induction n with
  | zero => intro s; rw [exec_loop_zero]; rfl
  | succ n ih =>
      intro s
      rw [exec_loop_succ]
      simp only []
      rw [if_neg]
      · simp only []
        rw [ih]
        rw [loopIterEvents, List.append_assoc]
        rfl
      · rw [exec_escalate_false env input h]
        simp

theorem loop_no_escalate_state (env : Env) (input : String) (h : noEscalate env)
    (nm : String) (subs : List Agent) :
    ∀ (n : Nat) (s : StateStore),
      (exec env input (.loopJob nm subs n) s).state =
        loopIterState env input subs n s := by
  intro n
  induction n with
  | zero => intro s; rw [exec_loop_zero]; rfl
  | succ n ih =>
      intro s
      rw [exec_loop_succ]
      simp only []
      rw [if_neg]
      · simp only []
        rw [ih]
        rfl
      · rw [exec_escalate_false env input h]
        simp

/-- A transfer-free sequential pass runs the whole sub-agent list: its
events decompose into one block per sub-agent, in declaration order. -/
theorem seq_events_ref (env : Env) (input : String) (h : noTransfer env) :
    ∀ (l : List Agent) (s : StateStore),
      (exec env input (.seqJob l) s).events = seqEventsRef env input l s := by
  intro l
  induction l with
  | nil => intro s; rw [exec_seq_nil]; rfl
  | cons a rest ih =>
      intro s
      rw [exec_seq_cons]
      simp only []
      rw [if_neg]
      · simp only []
        rw [ih]
        rfl
      · rw [exec_transfer_none env input h]
        simp

/-- The claim C2 property: a Loop composite under an environment that
never escalates runs its sub-agent sequence exactly `max_iterations`
times — the emitted events are exactly `max_iterations` full iteration
blocks — then terminates normally: the terminal Event is final, is not an
error, and is tagged `maxIterationsReached`; the result carries the last
iteration's state.  Every iteration block is a full pass over the
sub-agent list. -/
theorem loop_max_iterations_termination (env : Env) (input : String)
    (h1 : noTransfer env) (h2 : noEscalate env)
    (nm : String) (subs : List Agent) (m : Nat) (s : StateStore) :
    (runAgent env input (LoopAgent nm subs m) s).events =
        loopIterEvents env input subs m s ++ [loopTerminalEvent nm .maxIterationsReached]
    ∧ (runAgent env input (LoopAgent nm subs m) s).state =
        loopIterState env input subs m s
    ∧ (loopTerminalEvent nm .maxIterationsReached).terminatedBy =
        some .maxIterationsReached
    ∧ (loopTerminalEvent nm .maxIterationsReached).isError = false
    ∧ (loopTerminalEvent nm .maxIterationsReached).isFinal = true
    ∧ (∀ st, (exec env input (.seqJob subs) st).events = seqEventsRef env input subs st) := by
  rw [runAgent, LoopAgent, exec_one_loop]
  exact ⟨loop_no_escalate_events env input h2 nm subs m s,
         loop_no_escalate_state env input h2 nm subs m s,
         rfl, rfl, rfl,
         fun st => seq_events_ref env input h1 subs st⟩

/-- Witness for C2: the RefinementLoop of the loop pattern lab
(`max_iterations = 5`) under a plain environment. -/
theorem loop_max_iterations_witness :
    (runAgent (plainEnv "draft") "write an essay" refinement_loop ⟨[]⟩).events =
        loopIterEvents (plainEnv "draft") "write an essay"
          [critic_agent_in_loop.toAgent, refiner_agent_in_loop.toAgent] 5 ⟨[]⟩ ++
          [loopTerminalEvent "RefinementLoop" .maxIterationsReached]
    ∧ (runAgent (plainEnv "draft") "write an essay" refinement_loop ⟨[]⟩).state =
        loopIterState (plainEnv "draft") "write an essay"
          [critic_agent_in_loop.toAgent, refiner_agent_in_loop.toAgent] 5 ⟨[]⟩
    ∧ (loopTerminalEvent "RefinementLoop" .maxIterationsReached).terminatedBy =
        some .maxIterationsReached
    ∧ (loopTerminalEvent "RefinementLoop" .maxIterationsReached).isError = false
    ∧ (loopTerminalEvent "RefinementLoop" .maxIterationsReached).isFinal = true
    ∧ (∀ st, (exec (plainEnv "draft") "write an essay"
        (.seqJob [critic_agent_in_loop.toAgent, refiner_agent_in_loop.toAgent]) st).events =
          seqEventsRef (plainEnv "draft") "write an essay"
            [critic_agent_in_loop.toAgent, refiner_agent_in_loop.toAgent] st) :=
  loop_max_iterations_termination (plainEnv "draft") "write an essay"
    (plainEnv_noTransfer "draft") (plainEnv_noEscalate "draft")
    "RefinementLoop" [critic_agent_in_loop.toAgent, refiner_agent_in_loop.toAgent] 5 ⟨[]⟩

/-! Loop runs that escalate during iteration `k` (0-indexed). -/

theorem loop_escalate_run (env : Env) (input : String) (nm : String) (subs : List Agent) :
    ∀ (k m : Nat) (s : StateStore), k < m →
      (∀ j < k, (exec env input (.seqJob subs)
          (loopIterState env input subs j s)).action.escalate = false) →
      (exec env input (.seqJob subs)
          (loopIterState env input subs k s)).action.escalate = true →
      (exec env input (.loopJob nm subs m) s).events =
          loopIterEvents env input subs (k + 1) s ++ [loopTerminalEvent nm .escalated]
      ∧ (exec env input (.loopJob nm subs m) s).state =
          loopIterState env input subs (k + 1) s := by
  intro k
  induction k with
  | zero =>
      intro m s hk hprev hesc
      match m, hk with
      | m' + 1, _ =>
        rw [exec_loop_succ]
        simp only [loopIterState] at hesc
        simp only []
        rw [if_pos hesc]
        constructor
        · simp only [loopIterEvents, loopIterState, List.append_nil]
        · rfl
  | succ k ih =>
      intro m s hk hprev hesc
      match m, hk with
      | m' + 1, _ =>
        have h0 : (exec env input (.seqJob subs) s).action.escalate = false := by
          have := hprev 0 (Nat.succ_pos k)
          simpa [loopIterState] using this
        rw [exec_loop_succ]
        simp only []
        rw [if_neg (by rw [h0]; simp)]
        simp only []
        have hk' : k < m' := by omega
        have hprev' : ∀ j < k, (exec env input (.seqJob subs)
            (loopIterState env input subs j (seqStep env input subs s))).action.escalate = false := by
          intro j hj
          exact hprev (j + 1) (Nat.succ_lt_succ hj)
        have hesc' : (exec env input (.seqJob subs)
            (loopIterState env input subs k (seqStep env input subs s))).action.escalate = true :=
          hesc
        obtain ⟨he, hs⟩ := ih m' (seqStep env input subs s) hk' hprev' hesc'
        constructor
        · have he' : (exec env input (Job.loopJob nm subs m')
              ((exec env input (Job.seqJob subs) s).state)).events =
              loopIterEvents env input subs (k + 1) (seqStep env input subs s) ++
                [loopTerminalEvent nm TermReason.escalated] := he
          rw [he']
          rw [show loopIterEvents env input subs (k + 1 + 1) s =
                (exec env input (Job.seqJob subs) s).events ++
                  loopIterEvents env input subs (k + 1) (seqStep env input subs s) from rfl]
          rw [List.append_assoc]
        · have hs' : (exec env input (Job.loopJob nm subs m')
              ((exec env input (Job.seqJob subs) s).state)).state =
              loopIterState env input subs (k + 1) (seqStep env input subs s) := hs
          rw [hs']
          rfl

/-- The claim C3 property: when escalation first happens during iteration
`k` (0-indexed, `k < max_iterations`), the loop's emitted events consist
of exactly `k + 1` full iteration blocks — the escalating iteration's
block included whole, so the escalation is observed only after that
iteration's full sub-agent sequence — followed by the terminal Event
tagged `escalated`; no event of an iteration `k + 1` exists, and the
result's state is the one after iteration `k`.  Under a transfer-free
environment every iteration block is a full ordered pass over the
sub-agent list. -/
theorem loop_escalation_termination (env : Env) (input : String)
    (h1 : noTransfer env) (nm : String) (subs : List Agent) (m : Nat)
    (s : StateStore) (k : Nat) (hk : k < m)
    (hprev : ∀ j < k, (exec env input (.seqJob subs)
        (loopIterState env input subs j s)).action.escalate = false)
    (hesc : (exec env input (.seqJob subs)
        (loopIterState env input subs k s)).action.escalate = true) :
    (runAgent env input (LoopAgent nm subs m) s).events =
        loopIterEvents env input subs (k + 1) s ++ [loopTerminalEvent nm .escalated]
    ∧ (runAgent env input (LoopAgent nm subs m) s).state =
        loopIterState env input subs (k + 1) s
    ∧ (loopTerminalEvent nm .escalated).terminatedBy = some .escalated
    ∧ (loopTerminalEvent nm .escalated).isError = false
    ∧ (∀ st, (exec env input (.seqJob subs) st).events = seqEventsRef env input subs st) := by
  rw [runAgent, LoopAgent, exec_one_loop]
  obtain ⟨he, hs⟩ := loop_escalate_run env input nm subs k m s hk hprev hesc
  exact ⟨he, hs, rfl, rfl, fun st => seq_events_ref env input h1 subs st⟩

/-- An environment whose leaves always escalate (the checker pattern). -/
def escEnv : Env := fun _ _ _ => .ok "done" ⟨none, true⟩

theorem escEnv_noTransfer : noTransfer escEnv := by
  intro nm inp instr t act hyp
  cases hyp
  rfl

theorem escEnv_action (inp nm t : String) (ok : Option String) (s : StateStore) :
    (runLeafStep escEnv inp nm t ok s).action = ⟨none, true⟩ := by
  simp [runLeafStep, escEnv]

theorem escEnv_seq_escalates (inp : String) (s : StateStore) :
    (exec escEnv inp
        (.seqJob [critic_agent_in_loop.toAgent, refiner_agent_in_loop.toAgent])
        s).action.escalate = true := by
  rw [exec_seq_cons]
  simp [exec_one_descr, escEnv_action]

/-- Witness for C3: the RefinementLoop under an always-escalating checker
environment terminates after its first iteration, tagged `escalated`. -/
theorem loop_escalation_witness :
    (runAgent escEnv "refine this" (LoopAgent "RefinementLoop"
        [critic_agent_in_loop.toAgent, refiner_agent_in_loop.toAgent] 5) ⟨[]⟩).events =
        loopIterEvents escEnv "refine this"
          [critic_agent_in_loop.toAgent, refiner_agent_in_loop.toAgent] (0 + 1) ⟨[]⟩ ++
          [loopTerminalEvent "RefinementLoop" .escalated]
    ∧ (runAgent escEnv "refine this" (LoopAgent "RefinementLoop"
        [critic_agent_in_loop.toAgent, refiner_agent_in_loop.toAgent] 5) ⟨[]⟩).state =
        loopIterState escEnv "refine this"
          [critic_agent_in_loop.toAgent, refiner_agent_in_loop.toAgent] (0 + 1) ⟨[]⟩
    ∧ (loopTerminalEvent "RefinementLoop" .escalated).terminatedBy = some .escalated
    ∧ (loopTerminalEvent "RefinementLoop" .escalated).isError = false
    ∧ (∀ st, (exec escEnv "refine this"
        (.seqJob [critic_agent_in_loop.toAgent, refiner_agent_in_loop.toAgent]) st).events =
          seqEventsRef escEnv "refine this"
            [critic_agent_in_loop.toAgent, refiner_agent_in_loop.toAgent] st) :=
  loop_escalation_termination escEnv "refine this" escEnv_noTransfer
    "RefinementLoop" [critic_agent_in_loop.toAgent, refiner_agent_in_loop.toAgent] 5
    ⟨[]⟩ 0 (by omega)
    (fun j hj => absurd hj (by omega))
    (escEnv_seq_escalates "refine this" (loopIterState escEnv "refine this"
      [critic_agent_in_loop.toAgent, refiner_agent_in_loop.toAgent] 0 ⟨[]⟩))

/-! Parallel runs: branch isolation, the barrier, and branch failure. -/

theorem exec_par_descr_events (env : Env) (input : String) :
    ∀ (descrs : List LeafDescr) (s : StateStore),
      (exec env input (.parJob (descrs.map LeafDescr.toAgent)) s).events =
        (descrs.map (fun d => leafEvents env input d s)).flatten := by
  intro descrs
  induction descrs with
  | nil => intro s; rw [List.map_nil, exec_par_nil]; rfl
  | cons d rest ih =>
      intro s
      rw [List.map_cons, exec_par_cons]
      simp only [exec_one_descr]
      rw [List.map_cons, List.flatten_cons, ih]
      rfl

/-- Each branch leaf emits exactly one Event, final and carrying the
branch's name: its success text or its surfaced failure. -/
theorem leafEvents_exists_final (env : Env) (input : String)
    (d : LeafDescr) (s : StateStore) :
    ∃ e ∈ leafEvents env input d s, e.sourceAgentId = d.name ∧ e.isFinal = true := by
  rw [leafEvents]
  cases henv : env d.name input (resolveTemplate d.instruction s) with
  | ok text act =>
      simp only [runLeafStep, henv]
      exact ⟨_, List.mem_singleton_self _, rfl, rfl⟩
  | fail msg =>
      simp only [runLeafStep, henv]
      exact ⟨_, List.mem_singleton_self _, rfl, rfl⟩

/-- A failed branch surfaces an error Event tagged with its own name. -/
theorem leafEvents_fail (env : Env) (input : String) (d : LeafDescr)
    (s : StateStore) (msg : String)
    (h : env d.name input (resolveTemplate d.instruction s) = .fail msg) :
    leafEvents env input d s =
      [{ content := msg, isFinal := true, sourceAgentId := d.name,
         actions := none, isError := true, terminatedBy := none }] := by
  rw [leafEvents]
  simp only [runLeafStep, h]

/-- The claim C5 property: a Parallel composite over `N` leaf branches
emits, for any environment, the branches' events — every branch evaluated
against the same incoming state, isolated from its siblings' writes —
followed by the barrier Event as the very last event; every branch
contributes a final Event before the barrier, and a failing branch does
not cancel its siblings: its failure appears as an error Event tagged
with that branch's name inside the pre-barrier prefix, for which the
barrier still waits. -/
theorem parallel_barrier_and_failure_isolation (env : Env) (input : String)
    (nm : String) (descrs : List LeafDescr) (s : StateStore) :
    (runAgent env input (ParallelAgent nm (descrs.map LeafDescr.toAgent)) s).events =
        (descrs.map (fun d => leafEvents env input d s)).flatten ++ [barrierEvent nm]
    ∧ (∀ d ∈ descrs, ∃ e ∈ (descrs.map (fun d => leafEvents env input d s)).flatten,
        e.sourceAgentId = d.name ∧ e.isFinal = true)
    ∧ (∀ d ∈ descrs, ∀ msg,
        env d.name input (resolveTemplate d.instruction s) = .fail msg →
        ({ content := msg, isFinal := true, sourceAgentId := d.name,
           actions := none, isError := true, terminatedBy := none } : Event) ∈
          (descrs.map (fun d => leafEvents env input d s)).flatten) := by
  refine ⟨?_, ?_, ?_⟩
  · rw [runAgent, ParallelAgent, exec_one_parallel]
    simp only []
    rw [exec_par_descr_events]
  · intro d hd
    obtain ⟨e, he, hsrc, hfin⟩ := leafEvents_exists_final env input d s
    exact ⟨e, List.mem_flatten.mpr ⟨leafEvents env input d s,
      List.mem_map.mpr ⟨d, hd, rfl⟩, he⟩, hsrc, hfin⟩
  · intro d hd msg hmsg
    apply List.mem_flatten.mpr
    refine ⟨leafEvents env input d s, List.mem_map.mpr ⟨d, hd, rfl⟩, ?_⟩
    rw [leafEvents_fail env input d s msg hmsg]
    exact List.mem_singleton_self _

/-- An environment in which the market researcher branch fails and the
other branches answer normally. -/
def parFailEnv : Env := fun nm _ _ =>
  if nm = "MarketResearcher" then .fail "network error" else .ok "findings" {}

/-- Witness for C5: the ParallelWebResearchAgent with a failing middle
branch still emits every branch's final Event before the barrier, and the
failure surfaces as an error Event tagged `MarketResearcher`. -/
theorem parallel_barrier_witness :
    (runAgent parFailEnv "research quantum computing"
        (ParallelAgent "ParallelWebResearchAgent" (web_research_descrs.map LeafDescr.toAgent))
        ⟨[]⟩).events =
        (web_research_descrs.map (fun d =>
          leafEvents parFailEnv "research quantum computing" d ⟨[]⟩)).flatten ++
          [barrierEvent "ParallelWebResearchAgent"]
    ∧ (∀ d ∈ web_research_descrs,
        ∃ e ∈ (web_research_descrs.map (fun d =>
          leafEvents parFailEnv "research quantum computing" d ⟨[]⟩)).flatten,
          e.sourceAgentId = d.name ∧ e.isFinal = true)
    ∧ ({ content := "network error", isFinal := true, sourceAgentId := "MarketResearcher",
         actions := none, isError := true, terminatedBy := none } : Event) ∈
        (web_research_descrs.map (fun d =>
          leafEvents parFailEnv "research quantum computing" d ⟨[]⟩)).flatten := by
  obtain ⟨h1, h2, h3⟩ := parallel_barrier_and_failure_isolation parFailEnv
    "research quantum computing" "ParallelWebResearchAgent" web_research_descrs ⟨[]⟩
  refine ⟨h1, h2, ?_⟩
  apply h3 researcher_agent_2
  · simp [web_research_descrs]
  · rfl

/-- The claim C6 property: constructing a Parallel composite whose
sibling branches declare a duplicate output key is rejected with a
ConfigurationError, while the ParallelWebResearchAgent — whose branches
declare the distinct keys tech_research, market_research and
academic_research — is accepted. -/
theorem parallel_duplicate_output_key_rejected :
    (∀ (nm : String) (subs : List Agent),
      hasDuplicate (declaredOutputKeys subs) = true →
      mkValidatedParallel nm subs =
        .error "ConfigurationError: duplicate output keys in Parallel siblings")
    ∧ mkValidatedParallel "ParallelWebResearchAgent" (web_research_descrs.map LeafDescr.toAgent) =
        .ok (ParallelAgent "ParallelWebResearchAgent" (web_research_descrs.map LeafDescr.toAgent)) := by
  constructor
  · intro nm subs h
    rw [mkValidatedParallel, if_pos h]
  · rfl

/-- Witness for C6: two sibling branches both declaring `tech_research`
are rejected at construction time. -/
theorem parallel_duplicate_output_key_witness :
    hasDuplicate (declaredOutputKeys
      [researcher_agent_1.toAgent, researcher_agent_1.toAgent]) = true
    ∧ mkValidatedParallel "BadParallel"
        [researcher_agent_1.toAgent, researcher_agent_1.toAgent] =
        .error "ConfigurationError: duplicate output keys in Parallel siblings" :=
  ⟨by rfl,
   parallel_duplicate_output_key_rejected.1 "BadParallel"
     [researcher_agent_1.toAgent, researcher_agent_1.toAgent] (by rfl)⟩

/-! Reads of unset keys. -/

theorem get?_eq_none_of_not_mem_keys (s : StateStore) (k : String)
    (h : k ∉ s.keys) : s.get? k = none := by
  rw [StateStore.get?]
  rw [List.find?_eq_none.mpr]
  · rfl
  · intro p hp hbeq
    apply h
    rw [StateStore.keys]
    rw [beq_iff_eq] at hbeq
    exact List.mem_map.mpr ⟨p, hp, hbeq⟩

/-- A placeholder-only template for the key `k`. -/
def placeholder (k : String) : String :=
  String.mk (lbrace :: (k.data ++ [rbrace]))

/-- Scanning an open placeholder: a brace-free key followed by the closing
brace resolves to the looked-up text. -/
theorem resolveChars_key (s : StateStore) :
    ∀ (l acc rest : List Char), (∀ c ∈ l, c ≠ rbrace) →
      resolveChars s (l ++ rbrace :: rest) (some acc) =
        (lookupText s (String.mk (acc.reverse ++ l))).data ++ resolveChars s rest none := by
  intro l
  induction l with
  | nil =>
      intro acc rest _
      simp [resolveChars]
  | cons c l ih =>
      intro acc rest hfree
      have hc : c ≠ rbrace := hfree c (List.mem_cons_self c l)
      rw [List.cons_append]
      rw [show resolveChars s (c :: (l ++ rbrace :: rest)) (some acc) =
            if c = rbrace then
              (lookupText s (String.mk acc.reverse)).data ++
                resolveChars s (l ++ rbrace :: rest) none
            else resolveChars s (l ++ rbrace :: rest) (some (c :: acc)) from rfl]
      rw [if_neg hc]
      rw [ih (c :: acc) rest (fun x hx => hfree x (List.mem_cons_of_mem c hx))]
      rw [List.reverse_cons, List.append_assoc]
      rfl

/-- The claim C7 property: for every StateStore and key never written,
the raw read returns `none`, the sequence read returns the empty list,
the text lookup returns the empty text — all defined defaults, none an
error — so `view_shopping_list` on an unset list reports an empty list
and the TemplateResolver interpolates the empty text for an unset
placeholder rather than failing. -/
theorem state_unset_key_default (s : StateStore) (k : String) (h : k ∉ s.keys) :
    s.get? k = none
    ∧ s.getListD k = []
    ∧ lookupText s k = ""
    ∧ ((∀ c ∈ k.data, c ≠ rbrace) → resolveTemplate (placeholder k) s = "")
    ∧ (k = "shopping_list" → view_shopping_list s = "The shopping list is currently empty.") := by
  have hnone : s.get? k = none := get?_eq_none_of_not_mem_keys s k h
  have hlist : s.getListD k = [] := by rw [StateStore.getListD, hnone]
  have htext : lookupText s k = "" := by rw [lookupText, hnone]
  refine ⟨hnone, hlist, htext, ?_, ?_⟩
  · intro hfree
    rw [resolveTemplate, placeholder]
    rw [show (String.mk (lbrace :: (k.data ++ [rbrace]))).data =
          lbrace :: (k.data ++ [rbrace]) from rfl]
    rw [show resolveChars s (lbrace :: (k.data ++ [rbrace])) none =
          if lbrace = lbrace then resolveChars s (k.data ++ [rbrace]) (some [])
          else lbrace :: resolveChars s (k.data ++ [rbrace]) none from rfl]
    rw [if_pos rfl]
    rw [show (k.data ++ [rbrace] : List Char) = k.data ++ rbrace :: [] from rfl]
    rw [resolveChars_key s k.data [] [] hfree]
    rw [show ([] : List Char).reverse ++ k.data = k.data from by simp]
    rw [show String.mk k.data = k from by cases k; rfl]
    rw [htext]
    rfl
  · intro hk
    rw [view_shopping_list]
    rw [hk] at hlist
    rw [hlist]
    rfl

/-- Witness for C7: a store holding only an unrelated key. -/
theorem state_unset_key_default_witness :
    (StateStore.mk [("other_key", .str "x")]).get? "shopping_list" = none
    ∧ (StateStore.mk [("other_key", .str "x")]).getListD "shopping_list" = []
    ∧ lookupText (StateStore.mk [("other_key", .str "x")]) "shopping_list" = ""
    ∧ resolveTemplate (placeholder "shopping_list") (StateStore.mk [("other_key", .str "x")]) = ""
    ∧ view_shopping_list (StateStore.mk [("other_key", .str "x")]) =
        "The shopping list is currently empty." := by
  have h := state_unset_key_default (StateStore.mk [("other_key", .str "x")])
    "shopping_list" (by decide)
  exact ⟨h.1, h.2.1, h.2.2.1, h.2.2.2.1 (by decide), h.2.2.2.2 rfl⟩

/-! The artifact-saving callback. -/

/-- The claim C8 property: a save with no ArtifactService configured
fails with the configuration error; a configured save returns a version;
and the `save_list_as_artifact` callback, asked to save a non-empty list
with no service configured, reports the error as an outcome — the
callback is a total function into `CallbackOutcome`, so the error is
caught and reported, never propagated out of the turn. -/
theorem artifact_save_unconfigured_reported :
    (∀ (filename content : String),
      saveArtifact none filename content = .error "Artifact service is not initialized")
    ∧ (∀ (svc : ArtifactService) (filename content : String),
      saveArtifact (some svc) filename content = .ok (svc.save filename content))
    ∧ (∀ (msg : String) (s : StateStore),
        strContains (toLowerStr msg) "save the list" = true →
        s.getListD "shopping_list" ≠ [] →
        save_list_as_artifact none msg s =
          .errorReported "Error saving artifact: Artifact service is not initialized. Is an ArtifactService configured in your runner?") := by
  refine ⟨fun _ _ => rfl, fun _ _ _ => rfl, ?_⟩
  intro msg s h1 h2
  have hne : (s.getListD "shopping_list").isEmpty = false := by
    cases hl : s.getListD "shopping_list" with
    | nil => exact absurd hl h2
    | cons a l => rfl
  rw [save_list_as_artifact, if_pos h1]
  simp only []
  rw [if_neg (by rw [hne]; simp)]
  rfl

/-- Witness for C8: saving a one-item list with no service configured. -/
theorem artifact_save_unconfigured_witness :
    saveArtifact none "shopping_list.txt" "My Shopping List:\n\n- Milk" =
        .error "Artifact service is not initialized"
    ∧ save_list_as_artifact none "Please save the list"
        ⟨[("shopping_list", .list ["Milk"])]⟩ =
        .errorReported "Error saving artifact: Artifact service is not initialized. Is an ArtifactService configured in your runner?" :=
  ⟨artifact_save_unconfigured_reported.1 "shopping_list.txt" "My Shopping List:\n\n- Milk",
   artifact_save_unconfigured_reported.2.2 "Please save the list"
     ⟨[("shopping_list", .list ["Milk"])]⟩ (by decide) (by decide)⟩

/-! Idempotence of template resolution. -/

theorem resolveCharsS_snd (s : StateStore) :
    ∀ (l : List Char) (mode : Option (List Char)), (resolveCharsS s l mode).2 = s := by
  intro l
  induction l with
  | nil => intro mode; cases mode <;> rfl
  | cons c rest ih =>
      intro mode
      cases mode with
      | none =>
          by_cases hc : c = lbrace
          · simp only [resolveCharsS, if_pos hc]
            exact ih (some [])
          · simp only [resolveCharsS, if_neg hc]
            exact ih none
      | some acc =>
          by_cases hc : c = rbrace
          · simp only [resolveCharsS, if_pos hc]
            exact ih none
          · simp only [resolveCharsS, if_neg hc]
            exact ih (some (c :: acc))

theorem resolveCharsS_fst (s : StateStore) :
    ∀ (l : List Char) (mode : Option (List Char)),
      (resolveCharsS s l mode).1 = resolveChars s l mode := by
  intro l
  induction l with
  | nil => intro mode; cases mode <;> rfl
  | cons c rest ih =>
      intro mode
      cases mode with
      | none =>
          by_cases hc : c = lbrace
          · simp only [resolveCharsS, resolveChars, if_pos hc]
            exact ih (some [])
          · simp only [resolveCharsS, resolveChars, if_neg hc]
            rw [ih none]
      | some acc =>
          by_cases hc : c = rbrace
          · simp only [resolveCharsS, resolveChars, if_pos hc]
            rw [ih none]
          · simp only [resolveCharsS, resolveChars, if_neg hc]
            exact ih (some (c :: acc))

/-- The claim C9 property: template resolution leaves the store exactly
as it found it, its text agrees with the pure resolver, and resolving the
same template a second time — against the store the first resolution left
behind — produces the identical resolved text and store: resolution is
idempotent and depends on nothing but the template and the store. -/
theorem template_resolution_idempotent (t : String) (s : StateStore) :
    (resolveTemplateS t s).2 = s
    ∧ (resolveTemplateS t s).1 = resolveTemplate t s
    ∧ resolveTemplateS t ((resolveTemplateS t s).2) = resolveTemplateS t s := by
  have hsnd : (resolveTemplateS t s).2 = s := by
    rw [resolveTemplateS]
    exact resolveCharsS_snd s t.data none
  refine ⟨hsnd, ?_, ?_⟩
  · rw [resolveTemplateS, resolveTemplate]
    simp only []
    rw [resolveCharsS_fst s t.data none]
  · rw [hsnd]

/-! The shopping-list tool. -/

theorem getListD_set (s : StateStore) (k : String) (l : List String) :
    (s.set k (.list l)).getListD k = l := by
  simp [StateStore.getListD, StateStore.get?, StateStore.set, List.find?]

/-- The claim C10 property: `add_to_shopping_list` appends the item to
the end of the list exactly when no existing entry equals it ignoring
case and leaves the list unchanged otherwise; a list free of
case-insensitive duplicates stays free of them; and in both cases the
tool returns the same "has been added" acknowledgement, even when
nothing was added. -/
theorem add_to_shopping_list_spec (s : StateStore) (item : String) :
    (add_to_shopping_list item s).1 = "'" ++ item ++ "' has been added to the list."
    ∧ (add_to_shopping_list item s).2.getListD "shopping_list" =
        (if ((s.getListD "shopping_list").map toLowerStr).contains (toLowerStr item)
          then s.getListD "shopping_list" else s.getListD "shopping_list" ++ [item])
    ∧ (List.Pairwise (fun a b => toLowerStr a ≠ toLowerStr b) (s.getListD "shopping_list") →
        List.Pairwise (fun a b => toLowerStr a ≠ toLowerStr b)
          ((add_to_shopping_list item s).2.getListD "shopping_list")) := by
  have hlist : (add_to_shopping_list item s).2.getListD "shopping_list" =
      (if ((s.getListD "shopping_list").map toLowerStr).contains (toLowerStr item)
        then s.getListD "shopping_list" else s.getListD "shopping_list" ++ [item]) := by
    rw [add_to_shopping_list]
    simp only []
    rw [getListD_set]
  refine ⟨rfl, hlist, ?_⟩
  intro hpw
  rw [hlist]
  by_cases hc : ((s.getListD "shopping_list").map toLowerStr).contains (toLowerStr item) = true
  · rw [if_pos hc]
    exact hpw
  · rw [if_neg hc]
    rw [List.pairwise_append]
    refine ⟨hpw, List.pairwise_singleton _ _, ?_⟩
    intro a ha b hb
    rw [List.mem_singleton] at hb
    rw [hb]
    intro heq
    apply hc
    have : toLowerStr item ∈ (s.getListD "shopping_list").map toLowerStr := by
      rw [← heq]
      exact List.mem_map.mpr ⟨a, ha, rfl⟩
    simpa using this

/-- Witness for C10: adding "MILK" to a list already holding "Milk"
leaves the list unchanged yet still acknowledges the addition. -/
theorem add_to_shopping_list_witness :
    (add_to_shopping_list "MILK" ⟨[("shopping_list", .list ["Milk", "eggs"])]⟩).1 =
        "'" ++ "MILK" ++ "' has been added to the list."
    ∧ (add_to_shopping_list "MILK" ⟨[("shopping_list", .list ["Milk", "eggs"])]⟩).2.getListD
        "shopping_list" =
        (if (((StateStore.mk [("shopping_list", .list ["Milk", "eggs"])]).getListD
              "shopping_list").map toLowerStr).contains (toLowerStr "MILK")
          then (StateStore.mk [("shopping_list", .list ["Milk", "eggs"])]).getListD "shopping_list"
          else (StateStore.mk [("shopping_list", .list ["Milk", "eggs"])]).getListD
              "shopping_list" ++ ["MILK"])
    ∧ List.Pairwise (fun a b => toLowerStr a ≠ toLowerStr b)
        ((add_to_shopping_list "MILK"
          ⟨[("shopping_list", .list ["Milk", "eggs"])]⟩).2.getListD "shopping_list") := by
  have h := add_to_shopping_list_spec ⟨[("shopping_list", .list ["Milk", "eggs"])]⟩ "MILK"
  exact ⟨h.1, h.2.1, h.2.2 (by decide)⟩

/-! Transfer-of-control. -/

/-- The claim C4 property: the `check_and_transfer` tool records
`billing_agent` as transfer target on a billing-keyword query and
`support_agent` on a technical-keyword query; the router resolves a
transfer target among the currently active agent's direct children only —
a resolved target is a direct child bearing literally the requested name,
an unknown name is a configuration error surfaced to the caller and never
retried; the HelpDeskCoordinator's two specialists resolve; a resolved
transfer runs the target on the very same original user input; and a
sibling that issues a transfer ends a Sequential turn — the remaining
siblings do not run. -/
theorem transfer_routes_to_direct_child_only :
    (∀ (q : String) (acts : ControlAction),
      billing_keywords.any (fun kw => strContains (toLowerStr q) kw) = true →
      (check_and_transfer q acts).2.transferToAgentId = some "billing_agent")
    ∧ (∀ (q : String) (acts : ControlAction),
      billing_keywords.any (fun kw => strContains (toLowerStr q) kw) = false →
      tech_keywords.any (fun kw => strContains (toLowerStr q) kw) = true →
      (check_and_transfer q acts).2.transferToAgentId = some "support_agent")
    ∧ (∀ (active : Agent) (x : String) (target : Agent),
      routeTransfer active x = .ok target →
      target ∈ active.sub_agents ∧ target.name = x)
    ∧ (∀ (active : Agent) (x : String),
      (∀ c ∈ active.sub_agents, c.name ≠ x) →
      routeTransfer active x =
        .error ("ConfigurationError: transfer target is not a direct child: " ++ x))
    ∧ routeTransfer coordinator_root_agent "billing_agent" = .ok billing_agent
    ∧ routeTransfer coordinator_root_agent "support_agent" = .ok support_agent
    ∧ (∀ (env : Env) (input : String) (s : StateStore) (root : Agent)
        (x : String) (target : Agent),
      (runAgent env input root s).action.transferToAgentId = some x →
      routeTransfer root x = .ok target →
      runTransferTurn env root input s =
        { events := (runAgent env input root s).events ++
            (runAgent env input target (runAgent env input root s).state).events,
          state := (runAgent env input target (runAgent env input root s).state).state,
          action := (runAgent env input target (runAgent env input root s).state).action,
          trace := (runAgent env input root s).trace ++
            (runAgent env input target (runAgent env input root s).state).trace })
    ∧ (∀ (env : Env) (input : String) (s : StateStore) (root : Agent)
        (x msg : String),
      (runAgent env input root s).action.transferToAgentId = some x →
      routeTransfer root x = .error msg →
      runTransferTurn env root input s =
        { events := (runAgent env input root s).events ++ [configErrorEvent root.name msg],
          state := (runAgent env input root s).state,
          action := {}, trace := (runAgent env input root s).trace })
    ∧ (∀ (env : Env) (input : String) (a : Agent) (rest : List Agent) (s : StateStore),
      (exec env input (.one a) s).action.transferToAgentId.isSome = true →
      exec env input (.seqJob (a :: rest)) s = exec env input (.one a) s) := by
  refine ⟨?_, ?_, ?_, ?_, rfl, rfl, ?_, ?_, ?_⟩
  · intro q acts h
    simp only [check_and_transfer]
    rw [if_pos h]
  · intro q acts hb ht
    simp only [check_and_transfer]
    rw [if_neg (by rw [hb]; simp), if_pos ht]
  · intro active x target ht
    rw [routeTransfer] at ht
    cases hf : active.sub_agents.find? (fun c => c.name == x) with
    | some c =>
        rw [hf] at ht
        cases ht
        refine ⟨List.mem_of_find?_eq_some hf, ?_⟩
        have := List.find?_some hf
        simpa using this
    | none =>
        rw [hf] at ht
        cases ht
  · intro active x h
    rw [routeTransfer]
    rw [List.find?_eq_none.mpr]
    intro c hc
    simp only [beq_iff_eq]
    exact h c hc
  · intro env input s root x target h1 h2
    rw [runTransferTurn]
    simp only []
    rw [h1]
    simp only [h2]
  · intro env input s root x msg h1 h2
    rw [runTransferTurn]
    simp only []
    rw [h1]
    simp only [h2]
  · intro env input a rest s h
    rw [exec_seq_cons]
    simp only []
    rw [if_pos h]

/-- An environment in which the coordinator runs its `check_and_transfer`
tool on the user's query and the specialists answer plainly. -/
def transferEnv : Env := fun nm inp _ =>
  if nm = "HelpDeskCoordinator" then
    .ok (check_and_transfer inp {}).1 (check_and_transfer inp {}).2
  else .ok "handled" {}

/-- Witness for C4: a billing query transfers to `billing_agent`, a
technical query to `support_agent`, an unknown target is a configuration
error, and the coordinator's transfer ends the sequential turn before any
later sibling. -/
theorem transfer_routes_witness :
    (check_and_transfer "I have a question about my bill" {}).2.transferToAgentId =
        some "billing_agent"
    ∧ (check_and_transfer "there is an error in the app" {}).2.transferToAgentId =
        some "support_agent"
    ∧ routeTransfer coordinator_root_agent "database_agent" =
        .error ("ConfigurationError: transfer target is not a direct child: " ++ "database_agent")
    ∧ routeTransfer coordinator_root_agent "billing_agent" = .ok billing_agent
    ∧ exec transferEnv "I have a question about my bill"
        (.seqJob (coordinator_root_agent :: [support_agent])) ⟨[]⟩ =
        exec transferEnv "I have a question about my bill"
          (.one coordinator_root_agent) ⟨[]⟩ := by
  obtain ⟨hb, ht, hok, herr, hcb, hcs, hturn, hterr, hskip⟩ :=
    transfer_routes_to_direct_child_only
  refine ⟨hb "I have a question about my bill" {} (by decide),
          ht "there is an error in the app" {} (by decide) (by decide),
          herr coordinator_root_agent "database_agent" (by decide),
          hcb, ?_⟩
  apply hskip transferEnv "I have a question about my bill" coordinator_root_agent
    [support_agent] ⟨[]⟩
  rw [show coordinator_root_agent = Agent.mk "HelpDeskCoordinator"
        coordinator_root_agent.instruction .leaf none 0 [billing_agent, support_agent]
      from rfl]
  rw [exec_one_leaf]
  decide

end Adk
